import Mathlib

/-!
Verification of the access-control and configuration-resolution engine of the
grievance_social_protection module.

The definitions below are a shallow embedding of the Python sources:
  - access_control.py (class GrievanceAccessControl)
  - apps.py (class TicketConfig: config normalization and SLA reconciliation)

Python dictionaries are modelled as association lists with first-match lookup
and in-place replacement on key collision (Python dict semantics for the
update patterns used by the source).  A Django user is modelled by an
anonymity bit plus the set of permission codes for which has_perm returns
true; an absent user is Option.none.  Values that Python types dynamically
(the permissions attribute can be a list or a dict) are modelled by an
explicit sum.  Python exceptions are modelled with Except / Option.
-/

/-- A Django user as seen by the access-control code: only is_anonymous and
has_perm are consulted. -/
structure PyUser where
  is_anonymous : Bool
  perms : List String
deriving DecidableEq

/-- user.has_perm for the modelled user. -/
def PyUser.hasPerm (u : PyUser) (code : String) : Bool :=
  u.perms.contains code

/-- The dynamically-typed permissions attribute of a processed node: the code
distinguishes lists (isinstance(permissions, list)) from other values, of
which the only one arising in the sources is a dict (the .get default). -/
inductive PermsVal where
  | plist (l : List String)
  | pdict (d : List (String × String))
deriving DecidableEq

/-- Python truthiness of a permissions value: empty list and empty dict are
falsy. -/
def permsFalsy : PermsVal → Bool
  | .plist l => l.isEmpty
  | .pdict d => d.isEmpty

/-- Whether isinstance(permissions, list) holds. -/
def permsIsList : PermsVal → Bool
  | .plist _ => true
  | .pdict _ => false

/-- A processed category node as stored in processed_categories by
__process_unified_categories. -/
structure CategoryInfo where
  priority : String
  permissions : PermsVal
  default_flags : List String
  resolution_times : Option String
  parent : Option String
  children : List (String × String)
deriving DecidableEq

/-- A processed flag node as stored in processed_flags. -/
structure FlagInfo where
  priority : String
  permissions : PermsVal
deriving DecidableEq

/-- The TicketConfig state consulted by the access-control code. -/
structure Config where
  grievance_types : List String
  processed_categories : List (String × CategoryInfo)
  processed_flags : List (String × FlagInfo)
deriving DecidableEq

/-- A ticket row as seen by filter_ticket_queryset: a string-valued category
column and a free-text flags column. -/
structure Ticket where
  category : String
  flags : String
deriving DecidableEq

/-- Python dict lookup (d[k] / k in d) on the association-list model. -/
def dictGet {α : Type} : List (String × α) → String → Option α
  | [], _ => none
  | (k, v) :: rest, key => if k = key then some v else dictGet rest key

/-- Python dict assignment d[k] = v: replace in place when the key exists,
append otherwise. -/
def dictSet {α : Type} : List (String × α) → String → α → List (String × α)
  | [], k, v => [(k, v)]
  | (k0, v0) :: rest, k, v =>
      if k0 = k then (k, v) :: rest else (k0, v0) :: dictSet rest k v

/-- str.split() on whitespace, Python semantics: split on runs of whitespace,
no empty tokens. -/
def pySplitWSAux : List Char → List Char → List String
  | [], acc => if acc.isEmpty then [] else [String.mk acc.reverse]
  | c :: rest, acc =>
      if c.isWhitespace then
        if acc.isEmpty then pySplitWSAux rest []
        else String.mk acc.reverse :: pySplitWSAux rest []
      else pySplitWSAux rest (c :: acc)

/-- str.split() of a whole string. -/
def pySplitWS (s : String) : List String :=
  pySplitWSAux s.data []

/-- str.split(sep) for a one-character separator, Python semantics: empty
tokens are kept. -/
def pySplitCharAux (sep : Char) : List Char → List Char → List String
  | [], acc => [String.mk acc.reverse]
  | c :: rest, acc =>
      if c = sep then String.mk acc.reverse :: pySplitCharAux sep rest []
      else pySplitCharAux sep rest (c :: acc)

/-- str.split(sep) of a whole string. -/
def pySplitChar (sep : Char) (s : String) : List String :=
  pySplitCharAux sep s.data []

/-- The principal is absent or anonymous (the first guard of every check). -/
def principalAbsentOrAnon : Option PyUser → Bool
  | none => true
  | some u => u.is_anonymous

/-- has_perm lifted to an optional user. -/
def pyHasPerm : Option PyUser → String → Bool
  | none, _ => false
  | some u, code => u.hasPerm code

/-- GrievanceAccessControl.check_category_permission, with the recursion on
the parent chain made total by a fuel argument (fuel 0 models Python
RecursionError; the recursive branch is in fact dead for normalizer-produced
configurations, see claim C9). -/
def checkCategoryPermissionFuel (cfg : Config) (user : Option PyUser) :
    Nat → String → Bool
  | 0, _ => false
  | fuel + 1, category_name =>
    match user with
    | none => false
    | some u =>
      if u.is_anonymous then false
      else
        match dictGet cfg.processed_categories category_name with
        | none => true
        | some category_info =>
          if permsFalsy category_info.permissions then true
          else
            match category_info.permissions with
            | .plist l => l.any u.hasPerm
            | .pdict _ =>
              match category_info.parent with
              | some parent_name =>
                  if parent_name = "" then true
                  else checkCategoryPermissionFuel cfg user fuel parent_name
              | none => true

/-- check_category_permission with enough fuel for any acyclic parent chain
in the configuration. -/
def check_category_permission (cfg : Config) (user : Option PyUser)
    (category_name : String) : Bool :=
  checkCategoryPermissionFuel cfg user (cfg.processed_categories.length + 1)
    category_name

/-- GrievanceAccessControl.check_flag_permission (no recursion: after the
list branch the source returns True). -/
def check_flag_permission (cfg : Config) (user : Option PyUser)
    (flag_name : String) : Bool :=
  match user with
  | none => false
  | some u =>
    if u.is_anonymous then false
    else
      match dictGet cfg.processed_flags flag_name with
      | none => true
      | some flag_info =>
        if permsFalsy flag_info.permissions then true
        else
          match flag_info.permissions with
          | .plist l => l.any u.hasPerm
          | .pdict _ => true

/-- GrievanceAccessControl.get_accessible_categories. -/
def get_accessible_categories (cfg : Config) (user : Option PyUser)
    (include_children : Bool) : List String :=
  if cfg.processed_categories.isEmpty then cfg.grievance_types
  else
    cfg.grievance_types.filter fun category_name =>
      check_category_permission cfg user category_name &&
        (include_children || !(category_name.data.contains '|'))

/-- An argument that the source accepts either as a whitespace-delimited
string or as an explicit sequence (the flags parameter of
validate_ticket_access and the flag_names parameter of
get_effective_priority). -/
inductive PyStrOrList where
  | str (s : String)
  | lst (l : List String)
deriving DecidableEq

/-- Python truthiness of such an argument. -/
def pyStrOrListFalsy : PyStrOrList → Bool
  | .str s => s == ""
  | .lst l => l.isEmpty

/-- flag_list = flags.split() if isinstance(flags, str) else flags. -/
def tokensOfFlags : PyStrOrList → List String
  | .str s => pySplitWS s
  | .lst l => l

/-- The token list actually iterated for an optional flags argument (an
absent or falsy argument skips the loop, which is the same as an empty token
list). -/
def flagTokensOpt : Option PyStrOrList → List String
  | none => []
  | some fa => tokensOfFlags fa

/-- The PermissionDenied message for a category raised by
validate_ticket_access. -/
def categoryDeniedMsg (category : String) : String :=
  "User does not have permission to create ticket with category: " ++ category

/-- The PermissionDenied message for a flag raised by
validate_ticket_access. -/
def flagDeniedMsg (flag : String) : String :=
  "User does not have permission to use flag: " ++ flag

/-- The condition under which the flag loop of validate_ticket_access raises
for a token: the token is truthy and fails check_flag_permission. -/
def deniedFlagPred (cfg : Config) (user : Option PyUser)
    (flag : String) : Bool :=
  flag ≠ "" && !check_flag_permission cfg user flag

/-- The flag loop of validate_ticket_access: raise on the first truthy flag
failing check_flag_permission. -/
def validateFlagsLoop (cfg : Config) (user : Option PyUser) :
    List String → Except String Unit
  | [] => .ok ()
  | flag :: rest =>
      if deniedFlagPred cfg user flag then .error (flagDeniedMsg flag)
      else validateFlagsLoop cfg user rest

/-- The category step of validate_ticket_access: raise when the category
argument is truthy and fails check_category_permission. -/
def categoryCheckStep (cfg : Config) (user : Option PyUser) :
    Option String → Except String Unit
  | some c =>
      if c ≠ "" && !check_category_permission cfg user c then
        .error (categoryDeniedMsg c)
      else .ok ()
  | none => .ok ()

/-- GrievanceAccessControl.validate_ticket_access; raising PermissionDenied
is modelled as Except.error carrying the message. -/
def validate_ticket_access (cfg : Config) (user : Option PyUser)
    (category : Option String) (flags : Option PyStrOrList) :
    Except String Unit :=
  match categoryCheckStep cfg user category with
  | .error e => .error e
  | .ok _ =>
    match flags with
    | none => .ok ()
    | some fa =>
        if pyStrOrListFalsy fa then .ok ()
        else validateFlagsLoop cfg user (tokensOfFlags fa)

/-- The ordered priority enumeration of get_effective_priority. -/
def priorityOrderList : List String :=
  ["Low", "Medium", "High", "Critical"]

/-- Python list.index, which raises ValueError (modelled as none) when the
element is absent. -/
def pyIndex (x : String) : List String → Option Nat
  | [] => none
  | y :: rest => if y = x then some 0 else (pyIndex x rest).map (· + 1)

/-- One comparison step of get_effective_priority: replace the running
maximum when the candidate has a strictly larger index; none models the
ValueError raised for a value outside the enumeration. -/
def prioUpdate (candidate maxp : String) : Option String :=
  match pyIndex candidate priorityOrderList, pyIndex maxp priorityOrderList with
  | some i, some j => some (if j < i then candidate else maxp)
  | _, _ => none

/-- The flag loop of get_effective_priority. -/
def effPrioFlagsLoop (cfg : Config) : List String → String → Option String
  | [], maxp => some maxp
  | flag_name :: rest, maxp =>
    let step : Option String :=
      if cfg.processed_flags.isEmpty then some maxp
      else
        match dictGet cfg.processed_flags flag_name with
        | some flag_info => prioUpdate flag_info.priority maxp
        | none => some maxp
    match step with
    | some m => effPrioFlagsLoop cfg rest m
    | none => none

/-- GrievanceAccessControl.get_effective_priority; none models the ValueError
raised by priorities.index on a priority outside the enumeration. -/
def get_effective_priority (cfg : Config) (category_name : String)
    (flag_names : Option PyStrOrList) : Option String :=
  let afterCat : Option String :=
    if cfg.processed_categories.isEmpty then some "Medium"
    else
      match dictGet cfg.processed_categories category_name with
      | some category_info => prioUpdate category_info.priority "Medium"
      | none => some "Medium"
  match afterCat with
  | none => none
  | some maxp =>
    match flag_names with
    | none => some maxp
    | some fa =>
        if pyStrOrListFalsy fa then some maxp
        else effPrioFlagsLoop cfg (tokensOfFlags fa) maxp

/-- List-of-chars prefix test. -/
def charsStartWith : List Char → List Char → Bool
  | [], _ => true
  | _ :: _, [] => false
  | a :: as, b :: bs => a = b && charsStartWith as bs

/-- Substring test on char lists (empty needle always matches). -/
def hasSubstring : List Char → List Char → Bool
  | [], needle => needle.isEmpty
  | c :: rest, needle =>
      charsStartWith needle (c :: rest) || hasSubstring rest needle

/-- Case-sensitive substring containment on strings. -/
def strContainsSub (hay pat : String) : Bool :=
  hasSubstring hay.data pat.data

/-- Case-insensitive substring containment (Django flags__icontains). -/
def strContainsSubCI (hay pat : String) : Bool :=
  hasSubstring (hay.data.map Char.toLower) (pat.data.map Char.toLower)

/-- The restricted_flags list computed inside filter_ticket_queryset: flags
with truthy permissions for which the user fails check_flag_permission. -/
def restrictedFlags (cfg : Config) (user : Option PyUser) : List String :=
  (cfg.processed_flags.filter fun kv =>
      !permsFalsy kv.2.permissions && !check_flag_permission cfg user kv.1).map
    (·.1)

/-- GrievanceAccessControl.filter_ticket_queryset on the list model of a
queryset: category__in filtering then per-restricted-flag
exclude(flags__icontains=flag). -/
def filter_ticket_queryset (cfg : Config) (user : Option PyUser)
    (queryset : List Ticket) : List Ticket :=
  let accessible := get_accessible_categories cfg user true
  let qs1 :=
    if cfg.processed_categories.isEmpty then queryset
    else queryset.filter fun t => accessible.contains t.category
  if cfg.processed_flags.isEmpty then qs1
  else
    (restrictedFlags cfg user).foldl
      (fun q flag => q.filter fun t => !strContainsSubCI t.flags flag) qs1

mutual
/-- One raw grievance_types entry: either a bare string or a structured dict
{name, priority?, permissions?, default_flags?, resolution_times?,
children?}; an absent key is Option.none, a present key carries its value
verbatim. -/
inductive CategoryInput where
  | str (s : String)
  | node (name : Option String) (priority : Option String)
      (permissions : Option PermsVal) (default_flags : Option (List String))
      (resolution_times : Option String) (children : CategoryInputList)

/-- A list of raw category entries (mutually inductive with CategoryInput so
that the recursive descent is structural). -/
inductive CategoryInputList where
  | nil
  | cons (head : CategoryInput) (tail : CategoryInputList)
end

/-- The accumulating state of __process_unified_categories:
processed_categories plus the flat_types list. -/
structure ProcState where
  cats : List (String × CategoryInfo)
  flat : List String
deriving DecidableEq

/-- child_full_name.split('|')[-1] from the children-registration step. -/
def lastPathComponent (s : String) : String :=
  (pySplitChar '|' s).getLastD ""

/-- The resolved fields of a structured entry before children are attached:
own value when the key is present, otherwise the parent's resolved value
(Medium / empty list / None at the root); resolution_times falls back to the
parent whenever the own value is falsy (absent or empty). -/
def resolveNodeFields (priority : Option String) (permissions : Option PermsVal)
    (default_flags : Option (List String)) (resolution_times : Option String)
    (parent : Option (String × CategoryInfo)) : CategoryInfo :=
  { priority :=
      priority.getD (match parent with
        | some (_, pinfo) => pinfo.priority
        | none => "Medium"),
    permissions :=
      permissions.getD (match parent with
        | some (_, pinfo) => pinfo.permissions
        | none => .plist []),
    default_flags :=
      default_flags.getD (match parent with
        | some (_, pinfo) => pinfo.default_flags
        | none => []),
    resolution_times :=
      if resolution_times.getD "" = "" then
        match parent with
        | some (_, pinfo) => pinfo.resolution_times
        | none => resolution_times
      else resolution_times,
    parent := (fun p => p.1) <$> parent,
    children := [] }

mutual
/-- process_category_item from __process_unified_categories: returns the
updated state and the full name of the processed entry (none when a dict
entry has no name and is skipped). -/
def processCategoryItem (item : CategoryInput)
    (parent : Option (String × CategoryInfo)) (st : ProcState) :
    ProcState × Option String :=
  match item with
  | .str s =>
    let full_name :=
      match parent with
      | some (pname, _) => pname ++ "|" ++ s
      | none => s
    let info :=
      { priority :=
          match parent with
          | some (_, pinfo) => pinfo.priority
          | none => "Medium",
        permissions :=
          match parent with
          | some (_, pinfo) => pinfo.permissions
          | none => .plist [],
        default_flags :=
          match parent with
          | some (_, pinfo) => pinfo.default_flags
          | none => [],
        resolution_times :=
          match parent with
          | some (_, pinfo) => pinfo.resolution_times
          | none => none,
        parent := (fun p => p.1) <$> parent,
        children := [] }
    ({ cats := dictSet st.cats full_name info, flat := st.flat ++ [full_name] },
      some full_name)
  | .node oname opr operm odf ort children =>
    match oname with
    | none => (st, none)
    | some cat_name =>
      let full_name :=
        match parent with
        | some (pname, _) => pname ++ "|" ++ cat_name
        | none => cat_name
      let info0 := resolveNodeFields opr operm odf ort parent
      let st1 : ProcState :=
        { cats := dictSet st.cats full_name info0,
          flat := st.flat ++ [full_name] }
      let res := processChildren children full_name info0 st1 []
      let infoF := { info0 with children := res.2 }
      ({ res.1 with cats := dictSet res.1.cats full_name infoF }, some full_name)

/-- The children loop of process_category_item, accumulating the
short-name-to-full-name children mapping of the parent. -/
def processChildren (items : CategoryInputList) (parentFull : String)
    (parentInfo : CategoryInfo) (st : ProcState)
    (acc : List (String × String)) : ProcState × List (String × String) :=
  match items with
  | .nil => (st, acc)
  | .cons child rest =>
    let res := processCategoryItem child (some (parentFull, parentInfo)) st
    let acc1 :=
      match res.2 with
      | some child_full => dictSet acc (lastPathComponent child_full) child_full
      | none => acc
    processChildren rest parentFull parentInfo res.1 acc1
end

/-- The top-level loop of __process_unified_categories over the raw
grievance_types list (no parent context). -/
def processTopLevel : CategoryInputList → ProcState → ProcState
  | .nil, st => st
  | .cons item rest, st => processTopLevel rest (processCategoryItem item none st).1

/-- __process_unified_categories starting from the empty state. -/
def processUnifiedCategoriesState (l : CategoryInputList) : ProcState :=
  processTopLevel l { cats := [], flat := [] }

/-- The Config published after __process_unified_categories: the flat list
replaces grievance_types and the processed map is stored. -/
def normalizedConfig (l : CategoryInputList)
    (flags : List (String × FlagInfo)) : Config :=
  let st := processUnifiedCategoriesState l
  { grievance_types := st.flat,
    processed_categories := st.cats,
    processed_flags := flags }

/-- The normalization of the legacy default_resolution map performed by
__validate_grievance_default_resolution_time: values that are empty or None
are replaced by the global resolution_times default string. -/
def normalizeLegacyResolution (globalRT : String)
    (default_resolution : List (String × Option String)) :
    List (String × String) :=
  default_resolution.map fun kv =>
    match kv.2 with
    | none => (kv.1, globalRT)
    | some s => if s = "" then (kv.1, globalRT) else (kv.1, s)

/-- The unified_resolution_times map built by
__validate_grievance_default_resolution_time: the normalized legacy map,
then every category with a truthy resolution_times overlaid at its path
key. -/
def buildUnifiedResolutionTimes (globalRT : String)
    (default_resolution : List (String × Option String))
    (processed_categories : List (String × CategoryInfo)) :
    List (String × String) :=
  let legacy := normalizeLegacyResolution globalRT default_resolution
  processed_categories.foldl
    (fun acc kv =>
      match kv.2.resolution_times with
      | some rt => if rt = "" then acc else dictSet acc kv.1 rt
      | none => acc)
    legacy

/-- Python whitespace for str.strip() (ASCII subset). -/
def pyIsSpace (c : Char) : Bool :=
  c = ' ' || c = '\t' || c = '\n' || c = '\r' || c = '\x0b' || c = '\x0c'

/-- The digit tail of a Python integer literal: digits with single
underscores allowed between digits. -/
def pyDigitsAux : List Char → Nat → Option Nat
  | [], acc => some acc
  | c :: rest, acc =>
      if c = '_' then
        match rest with
        | d :: rest2 =>
            if d.isDigit then pyDigitsAux rest2 (acc * 10 + (d.toNat - 48))
            else none
        | [] => none
      else if c.isDigit then pyDigitsAux rest (acc * 10 + (c.toNat - 48))
      else none

/-- The unsigned part of int(str): must start with a digit. -/
def pyIntNatPart : List Char → Option Nat
  | [] => none
  | c :: rest =>
      if c.isDigit then pyDigitsAux rest (c.toNat - 48) else none

/-- int(str): strip surrounding whitespace, optional sign, then digits with
optional underscore separators; none models ValueError. -/
def pyInt (s : String) : Option Int :=
  let t := ((s.data.dropWhile pyIsSpace).reverse.dropWhile pyIsSpace).reverse
  match t with
  | '+' :: rest => (pyIntNatPart rest).map fun n => (n : Int)
  | '-' :: rest => (pyIntNatPart rest).map fun n => -(n : Int)
  | rest => (pyIntNatPart rest).map fun n => (n : Int)

/-- __validate_resolution_time_format: true exactly when the value contains a
comma and its first two comma-separated fields parse as integers d and h with
0 <= d < 99 and 0 <= h < 24. -/
def validate_resolution_time_format (value : String) : Bool :=
  if !(value.data.contains ',') then false
  else
    let parts := pySplitChar ',' value
    match pyInt (parts.getD 0 ""), pyInt (parts.getD 1 "") with
    | some days, some hours =>
        decide (0 ≤ days ∧ days < 99 ∧ 0 ≤ hours ∧ hours < 24)
    | _, _ => false

/-! ### Basic lemmas about the dictionary model -/

theorem dictGet_dictSet_self {α : Type} (d : List (String × α)) (k : String)
    (v : α) : dictGet (dictSet d k v) k = some v := by
  induction d with
  | nil => simp [dictSet, dictGet]
  | cons kv rest ih =>
    by_cases h : kv.1 = k
    · simp [dictSet, h, dictGet]
    · simpa [dictSet, h, dictGet] using ih

theorem dictGet_dictSet_ne {α : Type} (d : List (String × α)) {k0 k : String}
    (v : α) (h : k0 ≠ k) : dictGet (dictSet d k0 v) k = dictGet d k := by
  induction d with
  | nil => simp [dictSet, dictGet, h]
  | cons kv rest ih =>
    by_cases h1 : kv.1 = k0
    · simp [dictSet, h1, dictGet, h]
    · simp [dictSet, h1, dictGet, ih]

theorem dictGet_mem {α : Type} {d : List (String × α)} {k : String} {v : α}
    (h : dictGet d k = some v) : (k, v) ∈ d := by
  induction d with
  | nil => simp [dictGet] at h
  | cons kv rest ih =>
    obtain ⟨k0, v0⟩ := kv
    by_cases h1 : k0 = k
    · simp [dictGet, h1] at h
      simp [h1, h]
    · simp [dictGet, h1] at h
      exact List.mem_cons_of_mem _ (ih h)

/-! ### Claim C1: check_category_permission case analysis -/

/-- Claim C1: for every principal and category path, check_category_permission
returns false for an absent or anonymous principal; otherwise it returns true
when the path is not a key of processed_categories, true when the resolved
node carries an empty permissions list, and for a non-empty permissions list
it returns true exactly when the principal holds at least one listed
permission code (OR semantics). -/
theorem claim_C1 (cfg : Config) (user : Option PyUser) (c : String) :
    (principalAbsentOrAnon user = true →
        check_category_permission cfg user c = false)
    ∧ (principalAbsentOrAnon user = false →
        (dictGet cfg.processed_categories c = none →
            check_category_permission cfg user c = true)
        ∧ ∀ info, dictGet cfg.processed_categories c = some info →
            (info.permissions = PermsVal.plist [] →
                check_category_permission cfg user c = true)
            ∧ ∀ l, info.permissions = PermsVal.plist l → l ≠ [] →
                (check_category_permission cfg user c = true ↔
                  ∃ p ∈ l, pyHasPerm user p = true)) := by
  cases user with
  | none =>
    refine ⟨fun _ => ?_, fun h => by simp [principalAbsentOrAnon] at h⟩
    simp [check_category_permission, checkCategoryPermissionFuel]
  | some u =>
    cases ha : u.is_anonymous with
    | true =>
      refine ⟨fun _ => ?_, fun h => by simp [principalAbsentOrAnon, ha] at h⟩
      simp [check_category_permission, checkCategoryPermissionFuel, ha]
    | false =>
      refine ⟨fun h => by simp [principalAbsentOrAnon, ha] at h, fun _ => ⟨?_, ?_⟩⟩
      · intro hnone
        simp [check_category_permission, checkCategoryPermissionFuel, ha, hnone]
      · intro info hsome
        constructor
        · intro hempty
          simp [check_category_permission, checkCategoryPermissionFuel, ha,
            hsome, hempty, permsFalsy]
        · intro l hl hne
          have hem : l.isEmpty = false := by
            cases l with
            | nil => exact absurd rfl hne
            | cons a as => rfl
          simp [check_category_permission, checkCategoryPermissionFuel, ha,
            hsome, hl, permsFalsy, hem, List.any_eq_true, pyHasPerm]

/-! ### Claim C3: validate_ticket_access -/

/-- The category argument does not cause a denial: it is absent, empty, or
authorized. -/
def categoryOkArg (cfg : Config) (user : Option PyUser) :
    Option String → Bool
  | some c => c == "" || check_category_permission cfg user c
  | none => true

/-- The first truthy flag token failing check_flag_permission, over the token
list of the flags argument. -/
def firstDeniedFlag (cfg : Config) (user : Option PyUser)
    (flags : Option PyStrOrList) : Option String :=
  (flagTokensOpt flags).find? (deniedFlagPred cfg user)

theorem validateFlagsLoop_spec (cfg : Config) (user : Option PyUser)
    (tokens : List String) :
    (∀ f, tokens.find? (deniedFlagPred cfg user) = some f →
        validateFlagsLoop cfg user tokens = .error (flagDeniedMsg f))
    ∧ (tokens.find? (deniedFlagPred cfg user) = none →
        validateFlagsLoop cfg user tokens = .ok ()) := by
  induction tokens with
  | nil => simp [validateFlagsLoop]
  | cons t rest ih =>
    cases hp : deniedFlagPred cfg user t with
    | true =>
      refine ⟨fun f hf => ?_, fun hf => ?_⟩
      · simp only [List.find?, hp] at hf
        cases hf
        simp [validateFlagsLoop, hp]
      · simp only [List.find?, hp] at hf
        cases hf
    | false =>
      refine ⟨fun f hf => ?_, fun hf => ?_⟩
      · simp only [List.find?, hp] at hf
        simpa [validateFlagsLoop, hp] using ih.1 f hf
      · simp only [List.find?, hp] at hf
        simpa [validateFlagsLoop, hp] using ih.2 hf

theorem tokensOfFlags_falsy {fa : PyStrOrList}
    (h : pyStrOrListFalsy fa = true) : tokensOfFlags fa = [] := by
  cases fa with
  | str s =>
    have hs : s = "" := by simpa [pyStrOrListFalsy] using h
    subst hs
    rfl
  | lst l =>
    cases l with
    | nil => rfl
    | cons a as => simp [pyStrOrListFalsy] at h

/-- Claim C3: validate_ticket_access denies naming the category exactly when
the category argument is a non-empty string failing
check_category_permission; otherwise it denies naming the first non-empty
token of the flags argument (string split on whitespace, or sequence) that
fails check_flag_permission; otherwise it returns unit, and absent category
and flags arguments always succeed. -/
theorem claim_C3 (cfg : Config) (user : Option PyUser)
    (category : Option String) (flags : Option PyStrOrList) :
    (∀ c, category = some c → c ≠ "" →
        check_category_permission cfg user c = false →
        validate_ticket_access cfg user category flags
          = .error (categoryDeniedMsg c))
    ∧ (categoryOkArg cfg user category = true →
        (∀ f, firstDeniedFlag cfg user flags = some f →
            validate_ticket_access cfg user category flags
              = .error (flagDeniedMsg f))
        ∧ (firstDeniedFlag cfg user flags = none →
            validate_ticket_access cfg user category flags = .ok ()))
    ∧ (category = none → flags = none →
        validate_ticket_access cfg user category flags = .ok ()) := by
  refine ⟨?_, ?_, ?_⟩
  · intro c hc hne hfail
    subst hc
    simp [validate_ticket_access, categoryCheckStep, hne, hfail]
  · intro hok
    have hcat : categoryCheckStep cfg user category = .ok () := by
      cases category with
      | none => rfl
      | some c =>
        have h2 : c = "" ∨ check_category_permission cfg user c = true := by
          simpa [categoryOkArg] using hok
        rcases h2 with h | h
        · simp [categoryCheckStep, h]
        · simp [categoryCheckStep, h]
    cases flags with
    | none =>
      refine ⟨fun f hf => ?_, fun _ => ?_⟩
      · simp [firstDeniedFlag, flagTokensOpt] at hf
      · simp [validate_ticket_access, hcat]
    | some fa =>
      cases hfal : pyStrOrListFalsy fa with
      | true =>
        have htok := tokensOfFlags_falsy hfal
        refine ⟨fun f hf => ?_, fun _ => ?_⟩
        · simp [firstDeniedFlag, flagTokensOpt, htok, List.find?] at hf
        · simp [validate_ticket_access, hcat, hfal]
      | false =>
        refine ⟨fun f hf => ?_, fun hf => ?_⟩
        · simp only [validate_ticket_access, hcat, hfal, Bool.false_eq_true,
            if_false]
          exact (validateFlagsLoop_spec cfg user (tokensOfFlags fa)).1 f
            (by simpa [firstDeniedFlag, flagTokensOpt] using hf)
        · simp only [validate_ticket_access, hcat, hfal, Bool.false_eq_true,
            if_false]
          exact (validateFlagsLoop_spec cfg user (tokensOfFlags fa)).2
            (by simpa [firstDeniedFlag, flagTokensOpt] using hf)
  · intro hc hf
    subst hc
    subst hf
    rfl

/-- The configuration used in the C3 witness: a category requiring 127001
and a flag requiring 127009. -/
def cfgC3W : Config :=
  { grievance_types := ["restricted"],
    processed_categories :=
      [("restricted",
        { priority := "Medium", permissions := .plist ["127001"],
          default_flags := [], resolution_times := none, parent := none,
          children := [] })],
    processed_flags :=
      [("SECRET", { priority := "High", permissions := .plist ["127009"] })] }

/-- A non-anonymous principal with no permissions, for the C3 witness. -/
def userC3W : Option PyUser := some { is_anonymous := false, perms := [] }

theorem claim_C3_witness :
    validate_ticket_access cfgC3W userC3W (some "restricted") none
        = .error (categoryDeniedMsg "restricted")
    ∧ validate_ticket_access cfgC3W userC3W none
          (some (.str "ok SECRET"))
        = .error (flagDeniedMsg "SECRET")
    ∧ validate_ticket_access cfgC3W userC3W none (some (.str "ok")) = .ok ()
    ∧ validate_ticket_access cfgC3W userC3W none none = .ok () := by
  refine ⟨(claim_C3 cfgC3W userC3W (some "restricted") none).1 "restricted"
      (by decide) (by decide) (by decide),
    ((claim_C3 cfgC3W userC3W none (some (.str "ok SECRET"))).2.1
      (by decide)).1 "SECRET" (by decide),
    ((claim_C3 cfgC3W userC3W none (some (.str "ok"))).2.1 (by decide)).2
      (by decide),
    (claim_C3 cfgC3W userC3W none none).2.2 (by decide) (by decide)⟩

/-! ### Claim C5: get_accessible_categories -/

theorem check_category_permission_absentAnon (cfg : Config)
    {user : Option PyUser} (c : String)
    (h : principalAbsentOrAnon user = true) :
    check_category_permission cfg user c = false := by
  cases user with
  | none => simp [check_category_permission, checkCategoryPermissionFuel]
  | some u =>
    have ha : u.is_anonymous = true := by
      simpa [principalAbsentOrAnon] using h
    simp [check_category_permission, checkCategoryPermissionFuel, ha]

/-- Claim C5: under the configuration invariant that an empty
processed_categories map comes with an empty flat list (which every
normalizer-produced state satisfies), get_accessible_categories filters the
flat list in order by check_category_permission and the
include_children-or-root condition; hence it is an order-preserving
subsequence of the flat list and is empty for an absent or anonymous
principal. -/
theorem claim_C5 (cfg : Config) (user : Option PyUser)
    (include_children : Bool)
    (hco : cfg.processed_categories = [] → cfg.grievance_types = []) :
    get_accessible_categories cfg user include_children
      = cfg.grievance_types.filter (fun c =>
          check_category_permission cfg user c &&
            (include_children || !(c.data.contains '|')))
    ∧ (get_accessible_categories cfg user include_children).Sublist
        cfg.grievance_types
    ∧ (principalAbsentOrAnon user = true →
        get_accessible_categories cfg user include_children = []) := by
  have hmain : get_accessible_categories cfg user include_children
      = cfg.grievance_types.filter (fun c =>
          check_category_permission cfg user c &&
            (include_children || !(c.data.contains '|'))) := by
    by_cases he : cfg.processed_categories.isEmpty
    · have h0 : cfg.processed_categories = [] := by
        simpa [List.isEmpty_iff] using he
      have hg := hco h0
      simp [get_accessible_categories, he, hg]
    · simp [get_accessible_categories, he]
  refine ⟨hmain, ?_, ?_⟩
  · rw [hmain]
    exact List.filter_sublist _
  · intro ha
    rw [hmain]
    have hfalse : ∀ c, check_category_permission cfg user c = false :=
      fun c => check_category_permission_absentAnon cfg c ha
    simp [hfalse]

/-- The configuration used in the C5 witness. -/
def cfgC5W : Config :=
  { grievance_types := ["root", "root|kid"],
    processed_categories :=
      [("root",
        { priority := "Medium", permissions := .plist [],
          default_flags := [], resolution_times := none, parent := none,
          children := [("kid", "root|kid")] }),
       ("root|kid",
        { priority := "Medium", permissions := .plist [],
          default_flags := [], resolution_times := none,
          parent := some "root", children := [] })],
    processed_flags := [] }

/-- The anonymous principal used in the C5 witness. -/
def userC5W : Option PyUser := some { is_anonymous := true, perms := [] }

theorem claim_C5_witness :
    get_accessible_categories cfgC5W userC5W true
      = cfgC5W.grievance_types.filter (fun c =>
          check_category_permission cfgC5W userC5W c &&
            (true || !(c.data.contains '|')))
    ∧ (get_accessible_categories cfgC5W userC5W true).Sublist
        cfgC5W.grievance_types
    ∧ (principalAbsentOrAnon userC5W = true →
        get_accessible_categories cfgC5W userC5W true = []) :=
  claim_C5 cfgC5W userC5W true (by decide)

/-! ### Claims C6 and C10: get_effective_priority -/

/-- The rank of a priority in the order Low < Medium < High < Critical
(specification-side; only applied to members of the enumeration). -/
def prioVal (p : String) : Nat :=
  if p = "Low" then 0 else if p = "Medium" then 1 else if p = "High" then 2
  else 3

/-- The priority with a given rank. -/
def prioOfVal : Nat → String
  | 0 => "Low"
  | 1 => "Medium"
  | 2 => "High"
  | _ => "Critical"

/-- The priorities get_effective_priority is asked to maximise over: the
configured priority of the category when known, then the configured priority
of every given flag token that is known (unknown names ignored). -/
def effPrioInputs (cfg : Config) (category_name : String)
    (flag_names : Option PyStrOrList) : List String :=
  (match dictGet cfg.processed_categories category_name with
    | some ci => [ci.priority]
    | none => [])
    ++ (flagTokensOpt flag_names).filterMap fun f =>
        (dictGet cfg.processed_flags f).map FlagInfo.priority

/-- The maximum, under Low < Medium < High < Critical, of the starting value
Medium and a list of priorities. -/
def specMaxPriority (inputs : List String) : String :=
  prioOfVal (inputs.foldl (fun a p => Nat.max a (prioVal p))
    (prioVal "Medium"))

/-- All category priorities stored in the configuration are members of the
enumeration. -/
def catsPrioValid (cfg : Config) : Bool :=
  cfg.processed_categories.all fun kv =>
    priorityOrderList.contains kv.2.priority

/-- All flag priorities stored in the configuration are members of the
enumeration. -/
def flagsPrioValid (cfg : Config) : Bool :=
  cfg.processed_flags.all fun kv => priorityOrderList.contains kv.2.priority

/-- Every priority stored in the configuration is a member of the
enumeration. -/
def validPriorities (cfg : Config) : Bool :=
  catsPrioValid cfg && flagsPrioValid cfg

theorem mem_priorityOrderList_cases {p : String}
    (h : p ∈ priorityOrderList) :
    p = "Low" ∨ p = "Medium" ∨ p = "High" ∨ p = "Critical" := by
  simpa [priorityOrderList] using h

theorem prioOfVal_mem (n : Nat) : prioOfVal n ∈ priorityOrderList := by
  rcases n with _ | _ | _ | k <;> simp [prioOfVal, priorityOrderList]

theorem prioVal_le_three (p : String) : prioVal p ≤ 3 := by
  simp only [prioVal]
  split_ifs <;> decide

theorem prioVal_prioOfVal {n : Nat} (h : n ≤ 3) :
    prioVal (prioOfVal n) = n := by
  interval_cases n <;> decide

theorem prioOfVal_prioVal {p : String} (h : p ∈ priorityOrderList) :
    prioOfVal (prioVal p) = p := by
  rcases mem_priorityOrderList_cases h with rfl | rfl | rfl | rfl <;> decide

theorem prioUpdate_valid {p m : String} (hp : p ∈ priorityOrderList)
    (hm : m ∈ priorityOrderList) :
    prioUpdate p m = some (prioOfVal (Nat.max (prioVal p) (prioVal m))) := by
  rcases mem_priorityOrderList_cases hp with rfl | rfl | rfl | rfl <;>
    rcases mem_priorityOrderList_cases hm with rfl | rfl | rfl | rfl <;> decide

theorem effPrioFlagsLoop_spec (cfg : Config)
    (hf : flagsPrioValid cfg = true) (tokens : List String) :
    ∀ m, m ∈ priorityOrderList →
      effPrioFlagsLoop cfg tokens m
        = some (prioOfVal (List.foldl (fun a p => Nat.max a (prioVal p))
            (prioVal m) (tokens.filterMap fun f =>
              (dictGet cfg.processed_flags f).map FlagInfo.priority))) := by
  induction tokens with
  | nil => intro m hm; simp [effPrioFlagsLoop, prioOfVal_prioVal hm]
  | cons f rest ih =>
    intro m hm
    by_cases he : cfg.processed_flags.isEmpty
    · have h0 : cfg.processed_flags = [] := by
        simpa [List.isEmpty_iff] using he
      simp [effPrioFlagsLoop, he, h0, dictGet, ih m hm]
    · cases hl : dictGet cfg.processed_flags f with
      | none => simp [effPrioFlagsLoop, he, hl, ih m hm]
      | some fi =>
        have hfiv : fi.priority ∈ priorityOrderList := by
          have hmem := dictGet_mem hl
          have hall := (List.all_eq_true.mp hf) _ hmem
          exact List.mem_of_elem_eq_true hall
        have hb : Nat.max (prioVal fi.priority) (prioVal m) ≤ 3 :=
          Nat.max_le.mpr ⟨prioVal_le_three _, prioVal_le_three _⟩
        simp only [effPrioFlagsLoop, he, Bool.false_eq_true, if_false, hl,
          prioUpdate_valid hfiv hm]
        rw [ih _ (prioOfVal_mem _)]
        rw [List.filterMap_cons, hl]
        simp only [Option.map_some', List.foldl_cons]
        rw [prioVal_prioOfVal hb]
        have hc : Nat.max (prioVal fi.priority) (prioVal m)
            = Nat.max (prioVal m) (prioVal fi.priority) := Nat.max_comm _ _
        rw [hc]

theorem effPrioFlagsPart (cfg : Config) (hf : flagsPrioValid cfg = true)
    (flags : Option PyStrOrList) {m : String} (hm : m ∈ priorityOrderList) :
    (match flags with
      | none => some m
      | some fa =>
          if pyStrOrListFalsy fa then some m
          else effPrioFlagsLoop cfg (tokensOfFlags fa) m)
      = some (prioOfVal (List.foldl (fun a p => Nat.max a (prioVal p))
          (prioVal m) ((flagTokensOpt flags).filterMap fun f =>
            (dictGet cfg.processed_flags f).map FlagInfo.priority))) := by
  cases flags with
  | none => simp [flagTokensOpt, prioOfVal_prioVal hm]
  | some fa =>
    cases hfal : pyStrOrListFalsy fa with
    | true =>
      simp [hfal, flagTokensOpt, tokensOfFlags_falsy hfal,
        prioOfVal_prioVal hm]
    | false =>
      simp only [hfal, Bool.false_eq_true, if_false, flagTokensOpt]
      exact effPrioFlagsLoop_spec cfg hf (tokensOfFlags fa) m hm

/-- The central specification of get_effective_priority: under valid stored
priorities it computes the maximum of Medium, the known category priority and
the known flag priorities. -/
theorem getEffectivePrioritySpec (cfg : Config) (category_name : String)
    (flags : Option PyStrOrList) (h : validPriorities cfg = true) :
    get_effective_priority cfg category_name flags
      = some (specMaxPriority (effPrioInputs cfg category_name flags)) := by
  have hparts := (Bool.and_eq_true _ _).mp h
  have hcats : catsPrioValid cfg = true := hparts.1
  have hflags : flagsPrioValid cfg = true := hparts.2
  by_cases he : cfg.processed_categories.isEmpty
  · have h0 : cfg.processed_categories = [] := by
      simpa [List.isEmpty_iff] using he
    simp only [get_effective_priority, he, if_true, specMaxPriority,
      effPrioInputs, h0, dictGet, List.nil_append]
    exact effPrioFlagsPart cfg hflags flags (by decide)
  · cases hl : dictGet cfg.processed_categories category_name with
    | none =>
      simp only [get_effective_priority, he, Bool.false_eq_true, if_false,
        hl, specMaxPriority, effPrioInputs, List.nil_append]
      exact effPrioFlagsPart cfg hflags flags (by decide)
    | some ci =>
      have hcv : ci.priority ∈ priorityOrderList := by
        have hmem := dictGet_mem hl
        have hall := (List.all_eq_true.mp hcats) _ hmem
        exact List.mem_of_elem_eq_true hall
      have hb : Nat.max (prioVal ci.priority) (prioVal "Medium") ≤ 3 :=
        Nat.max_le.mpr ⟨prioVal_le_three _, prioVal_le_three _⟩
      have hstep := prioUpdate_valid hcv
        (show "Medium" ∈ priorityOrderList by decide)
      simp only [get_effective_priority, he, Bool.false_eq_true, if_false,
        hl, hstep]
      rw [effPrioFlagsPart cfg hflags flags (prioOfVal_mem _)]
      simp only [specMaxPriority, effPrioInputs, hl, List.cons_append,
        List.nil_append, List.foldl_cons]
      rw [prioVal_prioOfVal hb]
      have hc : Nat.max (prioVal ci.priority) (prioVal "Medium")
          = Nat.max (prioVal "Medium") (prioVal ci.priority) :=
        Nat.max_comm _ _
      rw [hc]

/-- Claim C6: for every category name and optional flag-name argument (string
split on whitespace, or sequence), get_effective_priority returns the maximum
under Low < Medium < High < Critical of the starting value Medium, the
configured category priority when the category is known, and the configured
priority of every known given flag; unknown names are ignored and no
principal is consulted. -/
theorem claim_C6 (cfg : Config) (category_name : String)
    (flags : Option PyStrOrList) (h : validPriorities cfg = true) :
    get_effective_priority cfg category_name flags
      = some (specMaxPriority (effPrioInputs cfg category_name flags)) :=
  getEffectivePrioritySpec cfg category_name flags h

/-- The configuration used in the C6 witness: default-priority category with
a High and a Low flag. -/
def cfgC6W : Config :=
  { grievance_types := ["c"],
    processed_categories :=
      [("c",
        { priority := "Medium", permissions := .plist [],
          default_flags := [], resolution_times := none, parent := none,
          children := [] })],
    processed_flags :=
      [("H", { priority := "High", permissions := .plist [] }),
       ("L", { priority := "Low", permissions := .plist [] })] }

theorem claim_C6_witness :
    get_effective_priority cfgC6W "c" (some (.str "H L"))
        = some (specMaxPriority (effPrioInputs cfgC6W "c" (some (.str "H L"))))
    ∧ specMaxPriority (effPrioInputs cfgC6W "c" (some (.str "H L")))
        = "High" :=
  ⟨claim_C6 cfgC6W "c" (some (.str "H L")) (by decide), by decide⟩

theorem le_foldl_max_prio (l : List String) :
    ∀ a : Nat, a ≤ l.foldl (fun x p => Nat.max x (prioVal p)) a := by
  induction l with
  | nil => intro a; simp
  | cons p rest ih =>
    intro a
    exact le_trans (Nat.le_max_left a (prioVal p)) (ih _)

theorem prioOfVal_ne_low {n : Nat} (h : 1 ≤ n) : prioOfVal n ≠ "Low" := by
  rcases n with _ | _ | _ | k
  · omega
  · decide
  · decide
  · simp [prioOfVal]

/-- The raw input whose single entry carries the out-of-enumeration priority
Bogus, for claim C10. -/
def bogusPrioInput : CategoryInputList :=
  .cons (.node (some "cat") (some "Bogus") none none none .nil) .nil

/-- The configuration the normalizer produces from bogusPrioInput. -/
def cfgBogusPrio : Config := normalizedConfig bogusPrioInput []

/-- Claim C10: when every stored priority is in the enumeration,
get_effective_priority is total and returns an enumeration member that is
never Low; the precondition is necessary because the normalizer stores an
entry priority verbatim without validation, and the index lookup fails
(ValueError, modelled as none) on any other value. -/
theorem claim_C10 :
    (∀ cfg category_name flags, validPriorities cfg = true →
        ∃ p, get_effective_priority cfg category_name flags = some p
          ∧ p ∈ priorityOrderList ∧ p ≠ "Low")
    ∧ (dictGet cfgBogusPrio.processed_categories "cat").map
        CategoryInfo.priority = some "Bogus"
    ∧ get_effective_priority cfgBogusPrio "cat" none = none := by
  refine ⟨?_, by decide, by decide⟩
  intro cfg category_name flags h
  refine ⟨specMaxPriority (effPrioInputs cfg category_name flags),
    getEffectivePrioritySpec cfg category_name flags h, prioOfVal_mem _, ?_⟩
  have h1 : 1 ≤ (effPrioInputs cfg category_name flags).foldl
      (fun a p => Nat.max a (prioVal p)) (prioVal "Medium") := by
    have := le_foldl_max_prio (effPrioInputs cfg category_name flags)
      (prioVal "Medium")
    simpa [prioVal] using this
  exact prioOfVal_ne_low h1

/-- The configuration used in the C10 witness. -/
def cfgC10W : Config :=
  { grievance_types := ["c"],
    processed_categories :=
      [("c",
        { priority := "Critical", permissions := .plist [],
          default_flags := [], resolution_times := none, parent := none,
          children := [] })],
    processed_flags := [] }

theorem claim_C10_witness :
    ∃ p, get_effective_priority cfgC10W "c" none = some p
      ∧ p ∈ priorityOrderList ∧ p ≠ "Low" :=
  claim_C10.1 cfgC10W "c" none (by decide)

/-! ### Claim C4: filter_ticket_queryset -/

/-- Every flag node carries a list-typed permissions attribute (true of every
normalizer-produced configuration). -/
def flagsPermsAllList (cfg : Config) : Bool :=
  cfg.processed_flags.all fun kv => permsIsList kv.2.permissions

/-- The restricted flags in the words of the claim: flag names whose
permissions list is non-empty and which the principal fails. -/
def restrictedFlagsClaim (cfg : Config) (user : Option PyUser) :
    List String :=
  (cfg.processed_flags.filter fun kv =>
      (match kv.2.permissions with
        | .plist l => !l.isEmpty
        | .pdict _ => false) && !check_flag_permission cfg user kv.1).map
    (·.1)

/-- The keep-condition exactly as claim C4 states it, with case-sensitive
substring containment. -/
def c4KeepStated (cfg : Config) (user : Option PyUser) (t : Ticket) : Bool :=
  (cfg.processed_categories.isEmpty ||
      (get_accessible_categories cfg user true).contains t.category)
    && (cfg.processed_flags.isEmpty ||
      (restrictedFlagsClaim cfg user).all fun flag =>
        !strContainsSub t.flags flag)

/-- The amended keep-condition: substring containment is case-insensitive,
matching the flags__icontains lookup the source uses. -/
def c4KeepAmended (cfg : Config) (user : Option PyUser) (t : Ticket) : Bool :=
  (cfg.processed_categories.isEmpty ||
      (get_accessible_categories cfg user true).contains t.category)
    && (cfg.processed_flags.isEmpty ||
      (restrictedFlagsClaim cfg user).all fun flag =>
        !strContainsSubCI t.flags flag)

theorem foldl_filter_all (fs : List String) (pred : String → Ticket → Bool)
    (qs : List Ticket) :
    fs.foldl (fun q flag => q.filter fun t => pred flag t) qs
      = qs.filter fun t => fs.all fun flag => pred flag t := by
  induction fs generalizing qs with
  | nil => simp
  | cons f rest ih =>
    simp only [List.foldl_cons, List.all_cons]
    rw [ih, List.filter_filter]
    apply List.filter_congr
    intro t _
    exact Bool.and_comm _ _

theorem restrictedFlags_eq_claim (cfg : Config) (user : Option PyUser)
    (h : flagsPermsAllList cfg = true) :
    restrictedFlags cfg user = restrictedFlagsClaim cfg user := by
  unfold restrictedFlags restrictedFlagsClaim
  congr 1
  apply List.filter_congr
  intro kv hmem
  have hil := (List.all_eq_true.mp h) _ hmem
  cases hp : kv.2.permissions with
  | plist l => simp [hp, permsFalsy]
  | pdict d => simp [permsIsList, hp] at hil

theorem filterTicketQuerysetAmended (cfg : Config) (user : Option PyUser)
    (qs : List Ticket) (h : flagsPermsAllList cfg = true) :
    filter_ticket_queryset cfg user qs
      = qs.filter (c4KeepAmended cfg user) := by
  unfold filter_ticket_queryset
  by_cases he1 : cfg.processed_categories.isEmpty <;>
    by_cases he2 : cfg.processed_flags.isEmpty
  · simp only [he1, if_true, he2]
    rw [List.filter_congr (fun t _ =>
      (show c4KeepAmended cfg user t = (fun _ : Ticket => true) t by
        simp [c4KeepAmended, he1, he2]))]
    simp
  · simp only [he1, if_true]
    simp only [show cfg.processed_flags.isEmpty = false by simpa using he2,
      Bool.false_eq_true, if_false]
    rw [restrictedFlags_eq_claim cfg user h, foldl_filter_all]
    apply List.filter_congr
    intro t _
    simp [c4KeepAmended, he1, he2]
  · simp only [show cfg.processed_categories.isEmpty = false by
      simpa using he1, Bool.false_eq_true, if_false, he2, if_true]
    apply List.filter_congr
    intro t _
    simp [c4KeepAmended, he1, he2]
  · simp only [show cfg.processed_categories.isEmpty = false by
      simpa using he1,
      show cfg.processed_flags.isEmpty = false by simpa using he2,
      Bool.false_eq_true, if_false]
    rw [restrictedFlags_eq_claim cfg user h, foldl_filter_all,
      List.filter_filter]
    apply List.filter_congr
    intro t _
    simp only [c4KeepAmended,
      show cfg.processed_categories.isEmpty = false by simpa using he1,
      show cfg.processed_flags.isEmpty = false by simpa using he2,
      Bool.false_or]
    exact Bool.and_comm _ _

/-- Claim C4 (amended): for flag configurations whose permissions are lists
(all normalizer output), filter_ticket_queryset keeps exactly the tickets
whose category passes the accessible-categories filter when a structured
category configuration is active, and whose flags field does not contain,
case-insensitively, any restricted flag name as a substring when a structured
flag configuration is active; with no structured configuration the queryset
is returned unchanged. -/
theorem claim_C4 (cfg : Config) (user : Option PyUser) (qs : List Ticket)
    (h : flagsPermsAllList cfg = true) :
    filter_ticket_queryset cfg user qs = qs.filter (c4KeepAmended cfg user)
    ∧ (cfg.processed_categories = [] → cfg.processed_flags = [] →
        filter_ticket_queryset cfg user qs = qs) := by
  refine ⟨filterTicketQuerysetAmended cfg user qs h, fun h1 h2 => ?_⟩
  simp [filter_ticket_queryset, h1, h2]

/-- A configuration with a restricted mixed-case flag name, used to separate
the stated (case-sensitive) keep-condition from the implemented
case-insensitive one. -/
def cfgC4X : Config :=
  { grievance_types := [],
    processed_categories := [],
    processed_flags :=
      [("SENSITIVE",
        { priority := "Medium", permissions := .plist ["127001"] })] }

/-- A non-anonymous principal lacking 127001, for claim C4. -/
def userC4X : Option PyUser := some { is_anonymous := false, perms := [] }

/-- A ticket whose flags field contains the restricted flag name only in
lower case. -/
def ticketC4X : Ticket := { category := "x", flags := "sensitive" }

theorem claim_C4_counterexample :
    c4KeepStated cfgC4X userC4X ticketC4X = true
    ∧ filter_ticket_queryset cfgC4X userC4X [ticketC4X] = [] := by
  decide

theorem claim_C4_witness :
    filter_ticket_queryset cfgC4X userC4X [ticketC4X]
        = [ticketC4X].filter (c4KeepAmended cfgC4X userC4X)
    ∧ (cfgC4X.processed_categories = [] → cfgC4X.processed_flags = [] →
        filter_ticket_queryset cfgC4X userC4X [ticketC4X] = [ticketC4X]) :=
  claim_C4 cfgC4X userC4X [ticketC4X] (by decide)

/-! ### Claim C2: normalizer inheritance -/

/-- Claim C2 (amended): a structured entry processed with a parent context
resolves priority, permissions and default_flags to its own value when the
key is present, else to the parent's resolved value; resolution_times
resolves to its own value only when that value is non-empty, else to the
parent's resolved value (an empty resolution_times is treated as
unspecified); and a bare-string child inherits all four fields from its
parent. -/
theorem claim_C2 (nm : String) (opr : Option String) (operm : Option PermsVal)
    (odf : Option (List String)) (ort : Option String)
    (children : CategoryInputList) (pn : String) (pinfo : CategoryInfo)
    (st : ProcState) :
    (∃ info,
      dictGet ((processCategoryItem
          (.node (some nm) opr operm odf ort children)
          (some (pn, pinfo)) st).1).cats (pn ++ "|" ++ nm) = some info
      ∧ info.priority = opr.getD pinfo.priority
      ∧ info.permissions = operm.getD pinfo.permissions
      ∧ info.default_flags = odf.getD pinfo.default_flags
      ∧ info.resolution_times =
          (if ort.getD "" = "" then pinfo.resolution_times else ort))
    ∧ (∀ s : String, ∃ info,
      dictGet ((processCategoryItem (.str s)
          (some (pn, pinfo)) st).1).cats (pn ++ "|" ++ s) = some info
      ∧ info.priority = pinfo.priority
      ∧ info.permissions = pinfo.permissions
      ∧ info.default_flags = pinfo.default_flags
      ∧ info.resolution_times = pinfo.resolution_times) := by
  constructor
  · simp only [processCategoryItem]
    exact ⟨_, dictGet_dictSet_self _ _ _, rfl, rfl, rfl, rfl⟩
  · intro s
    simp only [processCategoryItem]
    exact ⟨_, dictGet_dictSet_self _ _ _, rfl, rfl, rfl, rfl⟩

/-- The parent node used in the C2 counterexample, with resolved
resolution_times 2,0. -/
def parentInfoC2 : CategoryInfo :=
  { priority := "High", permissions := .plist ["127001"],
    default_flags := ["f"], resolution_times := some "2,0", parent := none,
    children := [] }

/-- Claim C2 counterexample: an entry that explicitly specifies
resolution_times as the empty string still resolves to the parent's value
2,0, not to its own specified value. -/
theorem claim_C2_counterexample :
    ((dictGet ((processCategoryItem
        (.node (some "c") none none none (some "") .nil)
        (some ("p", parentInfoC2)) { cats := [], flat := [] }).1).cats
      "p|c").map CategoryInfo.resolution_times = some (some "2,0"))
    ∧ some "2,0" ≠ (some "" : Option String) := by
  decide

/-! ### Claim C9: the recursive parent-lookup branch is dead -/

mutual
/-- A raw category entry is list-typed: its permissions, when present, are a
list, recursively for children. -/
def inputTyped : CategoryInput → Bool
  | .str _ => true
  | .node _ _ operm _ _ children =>
      (match operm with
        | none => true
        | some pv => permsIsList pv) && inputListTyped children

/-- All entries of a raw category list are list-typed. -/
def inputListTyped : CategoryInputList → Bool
  | .nil => true
  | .cons c rest => inputTyped c && inputListTyped rest
end

/-- All nodes of a processed map carry list-typed permissions. -/
def allPlist (cats : List (String × CategoryInfo)) : Bool :=
  cats.all fun kv => permsIsList kv.2.permissions

/-- The parent context carries list-typed permissions (vacuously at the
root). -/
def parentPermsPlist : Option (String × CategoryInfo) → Bool
  | none => true
  | some (_, pinfo) => permsIsList pinfo.permissions

theorem all_dictSet {α : Type} (p : String × α → Bool)
    (d : List (String × α)) (k : String) (v : α) (h1 : d.all p = true)
    (h2 : p (k, v) = true) : (dictSet d k v).all p = true := by
  induction d with
  | nil => simp [dictSet, h2]
  | cons kv rest ih =>
    obtain ⟨k0, v0⟩ := kv
    simp only [List.all_cons, Bool.and_eq_true] at h1
    by_cases hk : k0 = k
    · simp [dictSet, hk, List.all_cons, h2, h1.2]
    · simp only [dictSet, hk, if_false, List.all_cons, Bool.and_eq_true]
      exact ⟨h1.1, ih h1.2⟩

mutual
theorem processItem_allPlist (item : CategoryInput)
    (parent : Option (String × CategoryInfo)) (st : ProcState)
    (hi : inputTyped item = true) (hp : parentPermsPlist parent = true)
    (hs : allPlist st.cats = true) :
    allPlist ((processCategoryItem item parent st).1).cats = true := by
  cases item with
  | str s =>
    simp only [processCategoryItem]
    apply all_dictSet _ _ _ _ hs
    cases parent with
    | none => rfl
    | some pp =>
      obtain ⟨pn, pinfo⟩ := pp
      simpa [parentPermsPlist] using hp
  | node oname opr operm odf ort children =>
    cases oname with
    | none => simpa [processCategoryItem] using hs
    | some nm =>
      have hio := (Bool.and_eq_true _ _).mp (by simpa [inputTyped] using hi)
      have hinfo0 : permsIsList
          (resolveNodeFields opr operm odf ort parent).permissions = true := by
        cases operm with
        | some pv => simpa [resolveNodeFields] using hio.1
        | none =>
          cases parent with
          | none => rfl
          | some pp =>
            obtain ⟨pn, pinfo⟩ := pp
            simpa [resolveNodeFields, parentPermsPlist] using hp
      simp only [processCategoryItem]
      apply all_dictSet
      · exact processChildren_allPlist children _ _ _ _ hio.2 hinfo0
          (all_dictSet _ _ _ _ hs hinfo0)
      · exact hinfo0

theorem processChildren_allPlist (items : CategoryInputList)
    (parentFull : String) (parentInfo : CategoryInfo) (st : ProcState)
    (acc : List (String × String)) (hc : inputListTyped items = true)
    (hp : permsIsList parentInfo.permissions = true)
    (hs : allPlist st.cats = true) :
    allPlist ((processChildren items parentFull parentInfo st acc).1).cats
      = true := by
  cases items with
  | nil => simpa [processChildren] using hs
  | cons c rest =>
    have hparts := (Bool.and_eq_true _ _).mp (by simpa [inputListTyped] using hc)
    simp only [processChildren]
    exact processChildren_allPlist rest parentFull parentInfo _ _ hparts.2 hp
      (processItem_allPlist c (some (parentFull, parentInfo)) st hparts.1
        (by simpa [parentPermsPlist] using hp) hs)
end

theorem processTopLevel_allPlist :
    ∀ (l : CategoryInputList) (st : ProcState), inputListTyped l = true →
      allPlist st.cats = true → allPlist (processTopLevel l st).cats = true
  | .nil, st, _, hs => by simpa [processTopLevel] using hs
  | .cons c rest, st, h, hs => by
      have hparts := (Bool.and_eq_true _ _).mp
        (by simpa [inputListTyped] using h)
      exact processTopLevel_allPlist rest _ hparts.2
        (processItem_allPlist c none st hparts.1 rfl hs)

/-- The straight-line semantics of check_category_permission with inheritance
baked in at build time: empty permissions list allows, non-empty list is an
OR over has_perm; the non-list case never arises for normalizer output. -/
def checkCategoryPermissionBaked (cfg : Config) (user : Option PyUser)
    (category_name : String) : Bool :=
  match user with
  | none => false
  | some u =>
    if u.is_anonymous then false
    else
      match dictGet cfg.processed_categories category_name with
      | none => true
      | some category_info =>
        match category_info.permissions with
        | .plist l => l.isEmpty || l.any u.hasPerm
        | .pdict _ => false

/-- The guard of the recursive parent-lookup branch: the node's permissions
are truthy and not a list. -/
def parentBranchCondition (cfg : Config) (category_name : String) : Bool :=
  match dictGet cfg.processed_categories category_name with
  | some category_info =>
      !permsFalsy category_info.permissions &&
        !permsIsList category_info.permissions
  | none => false

theorem allPlist_lookup {cats : List (String × CategoryInfo)} {k : String}
    {info : CategoryInfo} (h : allPlist cats = true)
    (hl : dictGet cats k = some info) :
    ∃ l, info.permissions = PermsVal.plist l := by
  have hil := (List.all_eq_true.mp h) _ (dictGet_mem hl)
  cases hp : info.permissions with
  | plist l => exact ⟨l, rfl⟩
  | pdict d => simp [permsIsList, hp] at hil

theorem checkFuel_eq_baked (cfg : Config) (user : Option PyUser)
    (category_name : String) (fuel : Nat)
    (h : allPlist cfg.processed_categories = true) :
    checkCategoryPermissionFuel cfg user (fuel + 1) category_name
      = checkCategoryPermissionBaked cfg user category_name := by
  cases user with
  | none => rfl
  | some u =>
    cases ha : u.is_anonymous with
    | true => simp [checkCategoryPermissionFuel, checkCategoryPermissionBaked, ha]
    | false =>
      cases hl : dictGet cfg.processed_categories category_name with
      | none =>
        simp [checkCategoryPermissionFuel, checkCategoryPermissionBaked, ha, hl]
      | some info =>
        obtain ⟨l, hpl⟩ := allPlist_lookup h hl
        cases l with
        | nil =>
          simp [checkCategoryPermissionFuel, checkCategoryPermissionBaked,
            ha, hl, hpl, permsFalsy]
        | cons a as =>
          simp [checkCategoryPermissionFuel, checkCategoryPermissionBaked,
            ha, hl, hpl, permsFalsy]

/-- Claim C9: every configuration the normalizer produces from list-typed
entries has list-typed permissions on every node, so the guard of the
recursive parent-lookup branch of check_category_permission is false for
every name, and evaluation agrees with the straight-line baked semantics at
every fuel: the evaluation-time result coincides with the permissions baked
into the node at build time. -/
theorem claim_C9 (l : CategoryInputList) (flags : List (String × FlagInfo))
    (h : inputListTyped l = true) :
    allPlist (normalizedConfig l flags).processed_categories = true
    ∧ (∀ category_name,
        parentBranchCondition (normalizedConfig l flags) category_name
          = false)
    ∧ (∀ user category_name fuel,
        checkCategoryPermissionFuel (normalizedConfig l flags) user (fuel + 1)
            category_name
          = checkCategoryPermissionBaked (normalizedConfig l flags) user
            category_name)
    ∧ (∀ user category_name,
        check_category_permission (normalizedConfig l flags) user
            category_name
          = checkCategoryPermissionBaked (normalizedConfig l flags) user
            category_name) := by
  have hall : allPlist (normalizedConfig l flags).processed_categories
      = true := processTopLevel_allPlist l { cats := [], flat := [] } h rfl
  refine ⟨hall, ?_, ?_, ?_⟩
  · intro name
    unfold parentBranchCondition
    cases hl : dictGet (normalizedConfig l flags).processed_categories name
      with
    | none => rfl
    | some info =>
      obtain ⟨l0, hpl⟩ := allPlist_lookup hall hl
      simp [hpl, permsIsList]
  · intro user name fuel
    exact checkFuel_eq_baked _ user name fuel hall
  · intro user name
    exact checkFuel_eq_baked _ user name _ hall

/-- A list-typed raw input used in the C9 witness. -/
def inputC9W : CategoryInputList :=
  .cons (.node (some "complaint") (some "High")
      (some (.plist ["127000", "127001"])) none none
      (.cons (.str "service") .nil))
    (.cons (.str "other") .nil)

/-- The principal used in the C9 witness. -/
def userC9W : Option PyUser := some { is_anonymous := false, perms := [] }

theorem claim_C9_witness :
    allPlist (normalizedConfig inputC9W []).processed_categories = true
    ∧ parentBranchCondition (normalizedConfig inputC9W []) "complaint"
        = false
    ∧ checkCategoryPermissionFuel (normalizedConfig inputC9W []) userC9W
          (0 + 1) "complaint"
        = checkCategoryPermissionBaked (normalizedConfig inputC9W []) userC9W
          "complaint"
    ∧ check_category_permission (normalizedConfig inputC9W []) userC9W
          "complaint"
        = checkCategoryPermissionBaked (normalizedConfig inputC9W []) userC9W
          "complaint" := by
  have hc9 := claim_C9 inputC9W [] (by decide)
  exact ⟨hc9.1, hc9.2.1 "complaint", hc9.2.2.1 userC9W "complaint" 0,
    hc9.2.2.2 userC9W "complaint"⟩

/-! ### Claim C7: unified resolution times -/

/-- The overlay step of buildUnifiedResolutionTimes. -/
def unifiedStep (acc : List (String × String))
    (kv : String × CategoryInfo) : List (String × String) :=
  match kv.2.resolution_times with
  | some rt => if rt = "" then acc else dictSet acc kv.1 rt
  | none => acc

theorem buildUnified_eq_foldl (globalRT : String)
    (default_resolution : List (String × Option String))
    (cats : List (String × CategoryInfo)) :
    buildUnifiedResolutionTimes globalRT default_resolution cats
      = cats.foldl unifiedStep
          (normalizeLegacyResolution globalRT default_resolution) := rfl

theorem foldl_unifiedStep_not_mem (cats : List (String × CategoryInfo))
    (k : String) (hk : k ∉ cats.map (fun kv => kv.1)) :
    ∀ acc, dictGet (cats.foldl unifiedStep acc) k = dictGet acc k := by
  induction cats with
  | nil => intro acc; rfl
  | cons kv rest ih =>
    intro acc
    have hk0 : kv.1 ≠ k := by
      intro he
      exact hk (by simp [he])
    have hkr : k ∉ rest.map (fun kv => kv.1) := by
      intro hmem
      exact hk (by simp [hmem])
    rw [List.foldl_cons, ih hkr]
    unfold unifiedStep
    cases kv.2.resolution_times with
    | none => rfl
    | some rt =>
      by_cases hrt : rt = ""
      · simp [hrt]
      · simp [hrt, dictGet_dictSet_ne _ _ hk0]

theorem foldl_unifiedStep_found (cats : List (String × CategoryInfo))
    (k : String) (info : CategoryInfo) (rt : String)
    (hnd : (cats.map (fun kv => kv.1)).Nodup)
    (hl : dictGet cats k = some info)
    (hrt : info.resolution_times = some rt) (hne : rt ≠ "") :
    ∀ acc, dictGet (cats.foldl unifiedStep acc) k = some rt := by
  induction cats with
  | nil => simp [dictGet] at hl
  | cons kv rest ih =>
    intro acc
    obtain ⟨k0, i0⟩ := kv
    simp only [List.map_cons, List.nodup_cons] at hnd
    by_cases hk : k0 = k
    · subst hk
      have hinfo : i0 = info := by simpa [dictGet] using hl
      subst hinfo
      have hnotin : k0 ∉ rest.map (fun kv => kv.1) := hnd.1
      rw [List.foldl_cons, foldl_unifiedStep_not_mem rest k0 hnotin]
      unfold unifiedStep
      simp only [hrt, hne, if_false]
      exact dictGet_dictSet_self _ _ _
    · have hl2 : dictGet rest k = some info := by
        simpa [dictGet, hk] using hl
      rw [List.foldl_cons]
      exact ih hnd.2 hl2 _

/-- Claim C7 (amended): the unified map starts from the legacy
default_resolution with empty-or-absent values replaced by the global
default, then overlays each category's own non-empty resolution_times at its
path key; hence for any key present in both maps the category value wins
whenever it is non-empty (an empty category resolution_times is skipped and
the legacy value is kept). -/
theorem claim_C7 (globalRT : String)
    (default_resolution : List (String × Option String))
    (cats : List (String × CategoryInfo))
    (hnd : (cats.map (fun kv => kv.1)).Nodup) :
    (∀ k info rt, dictGet cats k = some info →
        info.resolution_times = some rt → rt ≠ "" →
        dictGet (buildUnifiedResolutionTimes globalRT default_resolution
          cats) k = some rt)
    ∧ (∀ k v, dictGet default_resolution k = some v → v.getD "" = "" →
        dictGet (normalizeLegacyResolution globalRT default_resolution) k
          = some globalRT) := by
  constructor
  · intro k info rt hl hrt hne
    rw [buildUnified_eq_foldl]
    exact foldl_unifiedStep_found cats k info rt hnd hl hrt hne _
  · intro k v hl hv
    induction default_resolution with
    | nil => simp [dictGet] at hl
    | cons kv rest ih =>
      obtain ⟨k0, v0⟩ := kv
      by_cases hk : k0 = k
      · subst hk
        have hv0 : v0 = v := by simpa [dictGet] using hl
        subst hv0
        cases v0 with
        | none => simp [normalizeLegacyResolution, dictGet]
        | some s =>
          have hs : s = "" := by simpa using hv
          subst hs
          simp [normalizeLegacyResolution, dictGet]
      · have hl2 : dictGet rest k = some v := by
          simpa [dictGet, hk] using hl
        cases v0 with
        | none =>
          simpa [normalizeLegacyResolution, dictGet, hk] using ih hl2
        | some s0 =>
          by_cases hs0 : s0 = ""
          · subst hs0
            simpa [normalizeLegacyResolution, dictGet, hk] using ih hl2
          · rw [show normalizeLegacyResolution globalRT ((k0, some s0) :: rest)
                = (k0, s0) :: normalizeLegacyResolution globalRT rest from by
                  simp [normalizeLegacyResolution, hs0]]
            simpa [dictGet, hk] using ih hl2

/-- The category node with an empty (present but falsy) resolution_times,
for the C7 counterexample. -/
def catInfoC7X : CategoryInfo :=
  { priority := "Medium", permissions := .plist [], default_flags := [],
    resolution_times := some "", parent := none, children := [] }

/-- Claim C7 counterexample: the key c is present in the legacy map and its
category node has a present resolution_times (the empty string), yet the
stored unified value is the legacy one, not the category one. -/
theorem claim_C7_counterexample :
    dictGet (buildUnifiedResolutionTimes "5,0" [("c", some "1,0")]
        [("c", catInfoC7X)]) "c" = some "1,0"
    ∧ catInfoC7X.resolution_times = some ""
    ∧ some "1,0" ≠ (some "" : Option String) := by
  decide

/-- The legacy map used in the C7 witness. -/
def drC7W : List (String × Option String) :=
  [("priority_cat", some "3,0"), ("legacy_cat", some "4,0"),
   ("empty_cat", some "")]

/-- The category node with resolution_times 2,0 used in the C7 witness. -/
def infoC7W : CategoryInfo :=
  { priority := "Medium", permissions := .plist [], default_flags := [],
    resolution_times := some "2,0", parent := none, children := [] }

theorem claim_C7_witness :
    dictGet (buildUnifiedResolutionTimes "5,0" drC7W
        [("priority_cat", infoC7W)]) "priority_cat" = some "2,0"
    ∧ dictGet (normalizeLegacyResolution "5,0" drC7W) "empty_cat"
        = some "5,0" := by
  have hthm := claim_C7 "5,0" drC7W [("priority_cat", infoC7W)] (by decide)
  exact ⟨hthm.1 "priority_cat" infoC7W "2,0" (by decide) (by decide)
    (by decide), hthm.2 "empty_cat" (some "") (by decide) (by decide)⟩

/-! ### Claim C8: the SLA string validator -/

/-- A non-empty all-digit string. -/
def strAllDigits (s : String) : Bool :=
  !s.isEmpty && s.data.all Char.isDigit

/-- The numeric value of a digit string. -/
def natOfDigits (s : String) : Nat :=
  s.data.foldl (fun a c => a * 10 + (c.toNat - 48)) 0

/-- The SLA pattern exactly as claim C8 states it: two comma-separated
non-negative integers, days below 99 and hours below 24. -/
def claimedSLAPattern (value : String) : Bool :=
  match pySplitChar ',' value with
  | [d, h] =>
      strAllDigits d && strAllDigits h && decide (natOfDigits d < 99) &&
        decide (natOfDigits h < 24)
  | _ => false

/-- Claim C8 counterexample: a string with a third comma-separated field is
accepted by the validator (only the first two fields are inspected) although
it does not match the stated two-field pattern. -/
theorem claim_C8_counterexample :
    validate_resolution_time_format "5,0,7" = true
    ∧ claimedSLAPattern "5,0,7" = false := by
  decide

/-- Claim C8 (amended): the validator accepts a string exactly when it
contains a comma and its first two comma-separated fields parse as Python
integers d and h with 0 <= d < 99 and 0 <= h < 24 (fields beyond the second
are ignored, and int parsing tolerates surrounding whitespace, a sign and
underscore digit separators); in particular 5,0 validates, 99,0 and 5,24
fail the range check, and abc fails the comma/parse check. -/
theorem claim_C8 (value : String) :
    (validate_resolution_time_format value = true ↔
      (value.data.contains ',' = true ∧
        ∃ d h : Int, pyInt ((pySplitChar ',' value).getD 0 "") = some d
          ∧ pyInt ((pySplitChar ',' value).getD 1 "") = some h
          ∧ 0 ≤ d ∧ d < 99 ∧ 0 ≤ h ∧ h < 24))
    ∧ validate_resolution_time_format "5,0" = true
    ∧ validate_resolution_time_format "99,0" = false
    ∧ validate_resolution_time_format "5,24" = false
    ∧ validate_resolution_time_format "abc" = false := by
  refine ⟨?_, by decide, by decide, by decide, by decide⟩
  unfold validate_resolution_time_format
  by_cases hc : value.data.contains ',' = true
  · simp only [hc, Bool.not_true, Bool.false_eq_true, if_false]
    cases hd : pyInt ((pySplitChar ',' value).getD 0 "") with
    | none => simp [hd, hc]
    | some d =>
      cases hh : pyInt ((pySplitChar ',' value).getD 1 "") with
      | none => simp [hd, hh, hc]
      | some h =>
        simp only [hd, hh, hc, true_and, decide_eq_true_eq]
        constructor
        · intro hcond
          exact ⟨d, h, rfl, rfl, hcond.1, hcond.2.1, hcond.2.2.1,
            hcond.2.2.2⟩
        · rintro ⟨d2, h2, hd2, hh2, H1, H2, H3, H4⟩
          cases hd2
          cases hh2
          exact ⟨H1, H2, H3, H4⟩
  · have hcf : value.data.contains ',' = false := by
      simpa using hc
    rw [hcf]
    constructor
    · intro hff
      simp at hff
    · rintro ⟨h1, _⟩
      exact Bool.noConfusion h1

/-- The node with permissions 127001/127002 used in the C1 witness. -/
def infoC1k : CategoryInfo :=
  { priority := "High", permissions := .plist ["127001", "127002"],
    default_flags := [], resolution_times := none, parent := none,
    children := [] }

/-- The node with an empty permissions list used in the C1 witness. -/
def infoC1e : CategoryInfo :=
  { priority := "Medium", permissions := .plist [],
    default_flags := [], resolution_times := none, parent := none,
    children := [] }

/-- The configuration used in the C1 witness. -/
def cfgC1W : Config :=
  { grievance_types := ["k", "e"],
    processed_categories := [("k", infoC1k), ("e", infoC1e)],
    processed_flags := [] }

/-- The non-anonymous principal holding exactly 127002 used in the C1
witness. -/
def userC1W : PyUser := { is_anonymous := false, perms := ["127002"] }

theorem claim_C1_witness :
    check_category_permission cfgC1W none "k" = false
    ∧ check_category_permission cfgC1W (some userC1W) "unknown" = true
    ∧ check_category_permission cfgC1W (some userC1W) "e" = true
    ∧ (check_category_permission cfgC1W (some userC1W) "k" = true ↔
        ∃ p ∈ ["127001", "127002"], pyHasPerm (some userC1W) p = true) := by
  refine ⟨(claim_C1 cfgC1W none "k").1 (by decide),
    ((claim_C1 cfgC1W (some userC1W) "unknown").2 (by decide)).1 (by decide),
    (((claim_C1 cfgC1W (some userC1W) "e").2 (by decide)).2 infoC1e
        (by decide)).1 (by decide),
    ((((claim_C1 cfgC1W (some userC1W) "k").2 (by decide)).2 infoC1k
        (by decide)).2 ["127001", "127002"] (by decide) (by decide))⟩
